import Mathlib

/-!
Verification of the `go-by-example-book-generator` repository.

This file gives a shallow embedding of the repository's core logic:

* the `naming` package (`ExtractWords`, `WordOverlap`);
* the fuzzy cache-reconciliation scan inside `github.GetGitHubFiles`;
* the bookmark/page-range accumulation inside `htmlpdf.ApplyBookmarks`
  and the fallback path when outline writing fails;
* the per-example processing loop and overall pipeline of `main`.

Go strings are modelled as Lean `String` (a wrapper around `List Char`);
Go `int` page arithmetic is modelled as `Int` (the values involved are far
from 64-bit overflow); Go `float64` similarity ratios are modelled as `ℚ`
(the similarity is a ratio of two small integers, and comparison against
the constant `0.7` agrees with the `float64` comparison because a ratio of
small integers is never within half an ulp of `0.7` without being exactly
`7/10`).  Fallible collaborators (file system, browser, pdfcpu) are
modelled by explicit outcome parameters, and the Go slice access
`ExamplePageCounts[i]`, which panics when out of bounds, is modelled by
`List.getElem?` with `none` propagating to the run-aborting error.
-/

namespace GoByExample

/-! ## The `naming` package (src/unnamed/part_004) -/

/-- Character-level model of `strings.TrimSuffix` (and of the Go slicing
`s[:len(s)-len(suffix)]` it performs). -/
def trimSuffixChars (l suf : List Char) : List Char :=
  if suf.isSuffixOf l then l.take (l.length - suf.length) else l

/-- `strings.TrimSuffix` on strings. -/
def TrimSuffix (s suf : String) : String :=
  String.mk (trimSuffixChars s.toList suf.toList)

/-- The separator predicate passed to `strings.FieldsFunc` in
`ExtractWords` (part_004 lines 43-45): hyphen, underscore, space, colon. -/
def isSeparator (r : Char) : Bool :=
  r == '-' || r == '_' || r == ' ' || r == ':'

/-- Splits a character list at every separator, keeping empty fields
(the empties are dropped afterwards, matching `strings.FieldsFunc`). -/
def splitChars (sep : Char → Bool) : List Char → List (List Char)
  | [] => [[]]
  | c :: rest =>
    if sep c then [] :: splitChars sep rest
    else
      match splitChars sep rest with
      | [] => [[c]]
      | w :: ws => (c :: w) :: ws

/-- Model of `strings.TrimSpace` (whitespace trimmed from both ends). -/
def trimChars (l : List Char) : List Char :=
  ((l.dropWhile Char.isWhitespace).reverse.dropWhile Char.isWhitespace).reverse

/-- `naming.ExtractWords` (part_004 lines 38-57): drop a `.html` suffix,
split on separators, lowercase and trim each field, and drop empty fields
and the stopwords `go`, `by`, `example`. -/
def ExtractWords (filename : String) : List String :=
  let f := TrimSuffix filename ".html"
  let words := (splitChars isSeparator f.toList).filter (fun w => w != [])
  let cleaned := words.map (fun w => (trimChars w).map Char.toLower)
  (cleaned.filter (fun w =>
      w != [] && w != ['g', 'o'] && w != ['b', 'y'] &&
      w != ['e', 'x', 'a', 'm', 'p', 'l', 'e'])).map String.mk

/-- `naming.WordOverlap` (part_004 lines 77-108): Jaccard similarity of the
two word sets, `0` when either input slice is empty.  The Go `map[string]bool`
key sets are modelled by `List.toFinset`; the quotient of the two `int`
counters is taken in `ℚ`. -/
def WordOverlap (originalWords existingWords : List String) : ℚ :=
  if originalWords.length = 0 ∨ existingWords.length = 0 then 0
  else
    let originalWordSet := originalWords.toFinset
    let existingWordSet := existingWords.toFinset
    let overlappingWords := (originalWordSet ∩ existingWordSet).card
    let totalUniqueWords := originalWordSet.card + existingWordSet.card - overlappingWords
    if totalUniqueWords = 0 then 0
    else (overlappingWords : ℚ) / (totalUniqueWords : ℚ)

/-- The name matcher of the spec: `WordOverlap` applied to the
`ExtractWords` tokenizations of the two identifier strings. -/
def matchNames (a b : String) : ℚ :=
  WordOverlap (ExtractWords a) (ExtractWords b)

lemma WordOverlap_comm (l1 l2 : List String) :
    WordOverlap l1 l2 = WordOverlap l2 l1 := by
  by_cases h1 : l1.length = 0 <;> by_cases h2 : l2.length = 0 <;>
    simp [WordOverlap, h1, h2, Finset.inter_comm, Nat.add_comm]

lemma WordOverlap_congr_toFinset {l1 l1' l2 l2' : List String}
    (h1 : l1.toFinset = l1'.toFinset) (h2 : l2.toFinset = l2'.toFinset) :
    WordOverlap l1 l2 = WordOverlap l1' l2' := by
  have e1 : l1.length = 0 ↔ l1'.length = 0 := by
    rw [List.length_eq_zero, List.length_eq_zero, ← List.toFinset_eq_empty_iff,
      ← List.toFinset_eq_empty_iff, h1]
  have e2 : l2.length = 0 ↔ l2'.length = 0 := by
    rw [List.length_eq_zero, List.length_eq_zero, ← List.toFinset_eq_empty_iff,
      ← List.toFinset_eq_empty_iff, h2]
  by_cases hA : l1.length = 0 ∨ l2.length = 0
  · have hA' : l1'.length = 0 ∨ l2'.length = 0 := by
      rcases hA with h | h
      · exact Or.inl (e1.mp h)
      · exact Or.inr (e2.mp h)
    have hA0 : l1 = [] ∨ l2 = [] := by
      simpa [List.length_eq_zero] using hA
    have hA0' : l1' = [] ∨ l2' = [] := by
      simpa [List.length_eq_zero] using hA'
    simp [WordOverlap, hA0, hA0']
  · have hA' : ¬(l1'.length = 0 ∨ l2'.length = 0) := by
      intro h; apply hA
      rcases h with h | h
      · exact Or.inl (e1.mpr h)
      · exact Or.inr (e2.mpr h)
    simp only [WordOverlap, if_neg hA, if_neg hA', h1, h2]

lemma WordOverlap_self_of_ne_nil {l : List String} (h : l ≠ []) :
    WordOverlap l l = 1 := by
  have hlen : ¬(l.length = 0 ∨ l.length = 0) := by
    simp [List.length_eq_zero, h]
  have hcard : l.toFinset.card ≠ 0 := by
    simp only [ne_eq, Finset.card_eq_zero, List.toFinset_eq_empty_iff]
    exact h
  simp only [WordOverlap, if_neg hlen, Finset.inter_self]
  rw [if_neg (by omega)]
  rw [Nat.add_sub_cancel]
  exact div_self (by exact_mod_cast hcard)

/-! ## The `github` package (src/internal/github/github.go) -/

/-- One Go by Example item (github.go lines 46-50). -/
structure Example where
  Title : String
  Content : String
  File : String
deriving DecidableEq

/-- `\w` of the Go regexp in `sanitizeFilename`: `[0-9A-Za-z_]`. -/
def isWordChar (c : Char) : Bool :=
  c.isAlphanum || c == '_'

/-- Replaces every maximal run of non-word characters by a single `'_'`,
the effect of `regexp.MustCompile customPattern .ReplaceAllString` with the
pattern of one-or-more non-word characters.  The Boolean records whether
the previous character belonged to such a run. -/
def sanitizeAux : Bool → List Char → List Char
  | _, [] => []
  | inRun, c :: rest =>
    if isWordChar c then c :: sanitizeAux false rest
    else if inRun then sanitizeAux true rest
    else '_' :: sanitizeAux true rest

/-- `github.sanitizeFilename` (github.go lines 188-192): lowercase the
trimmed title, then replace every run of non-word characters by `_`. -/
def sanitizeFilename (title : String) : String :=
  String.mk (sanitizeAux false ((trimChars title.toList).map Char.toLower))

/-- A directory entry as returned by `os.ReadDir` (name plus whether the
entry is a directory). -/
structure DirEntry where
  Name : String
  IsDir : Bool
deriving DecidableEq

/-- `strings.HasSuffix`. -/
def hasSuffixStr (s suf : String) : Bool :=
  suf.toList.isSuffixOf s.toList

/-- The cache scan inside the per-filename loop of `github.GetGitHubFiles`
(github.go lines 270-295): walk the directory entries in listing order;
for each non-directory `.html` entry whose `ExtractWords` tokens overlap
the canonical tokens by at least `0.7`, try to read it: on success adopt
that entry — its trimmed name and its on-disk content — and stop; on a
read failure (`os.ReadFile` error, github.go lines 281-285) log a warning
and `continue` scanning.  `readFile` supplies the content of an on-disk
file, `none` meaning the read fails. -/
def scanExisting (originalWords : List String) (readFile : String → Option String) :
    List DirEntry → Option (String × String)
  | [] => none
  | entry :: rest =>
    if !entry.IsDir && hasSuffixStr entry.Name ".html" then
      if WordOverlap originalWords (ExtractWords (TrimSuffix entry.Name ".html")) ≥ 7 / 10 then
        match readFile entry.Name with
        | none => scanExisting originalWords readFile rest
        | some content => some (TrimSuffix entry.Name ".html", content)
      else scanExisting originalWords readFile rest
    else scanExisting originalWords readFile rest

/-- The full per-filename decision of `github.GetGitHubFiles`
(github.go lines 258-325): reuse the first sufficiently similar and
readable on-disk `.html` artifact (adopting its identity); otherwise
download the file, deriving title and sanitized filename from the URL
filename — and when that download fails (github.go lines 302-306), log a
warning and `continue`, i.e. produce no `Example` for this filename at
all. -/
def processGitHubFile (filename : String) (entries : List DirEntry)
    (readFile download : String → Option String) : Option Example :=
  let originalWords := ExtractWords filename
  match scanExisting originalWords readFile entries with
  | some found => some { Title := found.1, Content := found.2, File := found.1 }
  | none =>
    match download filename with
    | none => none
    | some content =>
      some { Title := filename, Content := content,
             File := sanitizeFilename filename }

/-- The similarity condition under which the scan tries a directory
entry: a non-directory `.html` file at or above the `0.7` threshold. -/
def matchesExisting (originalWords : List String) (entry : DirEntry) : Bool :=
  !entry.IsDir && hasSuffixStr entry.Name ".html" &&
    decide (WordOverlap originalWords (ExtractWords (TrimSuffix entry.Name ".html")) ≥ 7 / 10)

/-- The condition under which the scan actually adopts an entry: it
matches and its content can be read. -/
def adoptsExisting (originalWords : List String) (readFile : String → Option String)
    (entry : DirEntry) : Bool :=
  matchesExisting originalWords entry && (readFile entry.Name).isSome

lemma scanExisting_cons_of_not_match {ow : List String} {rf : String → Option String}
    {e : DirEntry} {rest : List DirEntry} (h : matchesExisting ow e = false) :
    scanExisting ow rf (e :: rest) = scanExisting ow rf rest := by
  unfold matchesExisting at h
  by_cases h1 : (!e.IsDir && hasSuffixStr e.Name ".html") = true
  · have h2 : ¬ WordOverlap ow (ExtractWords (TrimSuffix e.Name ".html")) ≥ 7 / 10 := by
      intro hge
      rw [h1] at h
      simp [hge] at h
    simp only [scanExisting]
    rw [if_pos (by simpa using h1), if_neg h2]
  · simp only [scanExisting]
    rw [if_neg (by simpa using h1)]

lemma scanExisting_cons_of_match_read_none {ow : List String}
    {rf : String → Option String} {e : DirEntry} {rest : List DirEntry}
    (h : matchesExisting ow e = true) (hr : rf e.Name = none) :
    scanExisting ow rf (e :: rest) = scanExisting ow rf rest := by
  unfold matchesExisting at h
  simp only [Bool.and_eq_true, Bool.not_eq_true', decide_eq_true_eq] at h
  obtain ⟨⟨hd, hs⟩, hge⟩ := h
  simp only [scanExisting]
  rw [if_pos (by simp [hd, hs]), if_pos hge, hr]

lemma scanExisting_cons_of_match {ow : List String} {rf : String → Option String}
    {e : DirEntry} {rest : List DirEntry} {content : String}
    (h : matchesExisting ow e = true) (hr : rf e.Name = some content) :
    scanExisting ow rf (e :: rest) = some (TrimSuffix e.Name ".html", content) := by
  unfold matchesExisting at h
  simp only [Bool.and_eq_true, Bool.not_eq_true', decide_eq_true_eq] at h
  obtain ⟨⟨hd, hs⟩, hge⟩ := h
  simp only [scanExisting]
  rw [if_pos (by simp [hd, hs]), if_pos hge, hr]

lemma scanExisting_eq_none {ow : List String} {rf : String → Option String}
    {entries : List DirEntry}
    (h : ∀ e ∈ entries, adoptsExisting ow rf e = false) :
    scanExisting ow rf entries = none := by
  induction entries with
  | nil => rfl
  | cons e rest ih =>
    have he := h e (List.mem_cons_self e rest)
    unfold adoptsExisting at he
    by_cases hm : matchesExisting ow e = true
    · have hr : rf e.Name = none := by
        cases hrf : rf e.Name with
        | none => rfl
        | some v =>
          rw [hm, hrf] at he
          simp at he
      rw [scanExisting_cons_of_match_read_none hm hr]
      exact ih fun e' he' => h e' (List.mem_cons_of_mem e he')
    · rw [scanExisting_cons_of_not_match (by simpa using hm)]
      exact ih fun e' he' => h e' (List.mem_cons_of_mem e he')

/-! ## The `htmlpdf` package: bookmarks (src/unnamed/part_003, `ApplyBookmarks`) -/

/-- `pdfcpu.Bookmark` as used by `ApplyBookmarks`: a title and an
inclusive 1-based page range. -/
structure Bookmark where
  Title : String
  PageFrom : Int
  PageThru : Int
deriving DecidableEq

/-- The accumulation loop of `ApplyBookmarks` (part_003 lines 60-69):
`i` is the loop index, `exampleStartPage` the running cursor.  The Go code
reads `params.ExamplePageCounts[i]` with no bounds check; the
out-of-range panic is modelled by `none`. -/
def bookmarkLoop (ExamplePageCounts : List Int) :
    Nat → Int → List Example → Option (List Bookmark)
  | _, _, [] => some []
  | i, exampleStartPage, ex :: rest =>
    match ExamplePageCounts[i]? with
    | none => none
    | some pageCount =>
      match bookmarkLoop ExamplePageCounts (i + 1) (exampleStartPage + pageCount) rest with
      | none => none
      | some bks =>
        some ({ Title := toString (i + 1) ++ ". " ++ ex.Title,
                PageFrom := exampleStartPage,
                PageThru := exampleStartPage + pageCount - 1 } :: bks)

/-- The full bookmark list built by `ApplyBookmarks` (part_003 lines
49-69): the introduction bookmark covering pages `1..IntroPageCount`
followed by one bookmark per example starting at `IntroPageCount + 1`. -/
def ApplyBookmarksBookmarks (Examples : List Example) (IntroPageCount : Int)
    (ExamplePageCounts : List Int) : Option (List Bookmark) :=
  (bookmarkLoop ExamplePageCounts 0 (IntroPageCount + 1) Examples).map
    (fun bks =>
      { Title := "Introduction & Table of Contents",
        PageFrom := 1, PageThru := IntroPageCount } :: bks)

/-- A PDF artifact: a file on disk, a merge of artifacts, or an artifact
with an outline (bookmarks) applied. -/
inductive Artifact
  | raw (path : String)
  | mergedOf (parts : List Artifact)
  | withOutline (a : Artifact) (bookmarks : List Bookmark)

/-- The ways a run of `main` can end with `log.Fatalf`, plus the slice
index panic inside `ApplyBookmarks`. -/
inductive RunErr
  | indexOutOfRange
  | renameFailed
  | mergeExamplesFailed
  | tempIntroFailed
  | introFailed
  | mergeIntroFailed
deriving DecidableEq

/-- `htmlpdf.ApplyBookmarks` (part_003 lines 46-88): build the bookmark
list (panicking — `.error .indexOutOfRange` — if a page-count index is out
of bounds), then ask pdfcpu to write the outline.  If outline writing
fails (`addBookmarksOk = false`), fall back to renaming the temporary
merged file to the final path and return without error; if that rename
also fails, return an error.  The returned artifact is the content at the
final path. -/
def ApplyBookmarks (Examples : List Example) (IntroPageCount : Int)
    (ExamplePageCounts : List Int) (addBookmarksOk renameOk : Bool)
    (tempMergedPDF : Artifact) : Except RunErr Artifact :=
  match ApplyBookmarksBookmarks Examples IntroPageCount ExamplePageCounts with
  | none => .error .indexOutOfRange
  | some bookmarks =>
    if addBookmarksOk then .ok (.withOutline tempMergedPDF bookmarks)
    else if renameOk then .ok tempMergedPDF
    else .error .renameFailed

/-! ## The `main` pipeline (src/unnamed/part_002) -/

/-- Log lines emitted by the per-example loop and the intro measurement
of `main` (part_002 lines 170, 179, 192, 240) and by
`UpdatePageCountForDownloadedExamples` (part_003 line 443). -/
inductive LogEvent
  | htmlCreateError (title : String)
  | pdfCreateError (title : String)
  | pageCountWarning (title : String)
  | introPageCountWarning
deriving DecidableEq

/-- The environment of one iteration of the per-example loop: which files
already exist on disk, whether the two render collaborators succeed, and
what `api.PageCountFile` reports (`none` = it fails). -/
structure ItemEnv where
  HTMLExists : Bool
  PDFExists : Bool
  CreateHTMLOk : Bool
  HTMLToPDFOk : Bool
  PageCountQuery : Option Int
deriving DecidableEq

/-- One iteration of the per-example loop of `main` (part_002 lines
155-200, using `ReceiveOutputFileStatus`,
`UpdatePageCountForDownloadedExamples`, `CreateHTMLFile`, `HTMLToPDF` and
`api.PageCountFile`).  Returns `none` when the example is skipped
(`continue`), otherwise the appended `(pdfPath, pageCount)` pair; the
second component collects the logged errors and warnings.  A failing
page-count query is replaced by the fallback `1` with a warning. -/
def processExample (outputDir : String) (ex : Example) (env : ItemEnv) :
    Option (String × Int) × List LogEvent :=
  let pdfPath := outputDir ++ "/" ++ ex.File ++ ".pdf"
  if env.HTMLExists && env.PDFExists then
    match env.PageCountQuery with
    | some pageCount => (some (pdfPath, pageCount), [])
    | none => (some (pdfPath, 1), [.pageCountWarning ex.Title])
  else if !env.HTMLExists && !env.CreateHTMLOk then
    (none, [.htmlCreateError ex.Title])
  else if !env.PDFExists && !env.HTMLToPDFOk then
    (none, [.pdfCreateError ex.Title])
  else
    match env.PageCountQuery with
    | some pageCount => (some (pdfPath, pageCount), [])
    | none => (some (pdfPath, 1), [.pageCountWarning ex.Title])

/-- The accumulated state of the per-example loop: the `pdfPaths` and
`examplePageCounts` slices of `main` plus the log. -/
structure LoopResult where
  pdfPaths : List String
  examplePageCounts : List Int
  logs : List LogEvent
deriving DecidableEq

/-- The whole per-example loop of `main` (part_002 lines 155-200), run
over the examples zipped with their environments. -/
def processExamples (outputDir : String) : List (Example × ItemEnv) → LoopResult
  | [] => ⟨[], [], []⟩
  | (ex, env) :: rest =>
    let r := processExamples outputDir rest
    let pe := processExample outputDir ex env
    match pe.1 with
    | some pc => ⟨pc.1 :: r.pdfPaths, pc.2 :: r.examplePageCounts, pe.2 ++ r.logs⟩
    | none => ⟨r.pdfPaths, r.examplePageCounts, pe.2 ++ r.logs⟩

/-- The environment of a whole run of `main` after the example list is
fetched: per-item environments and the outcomes of the fatal-on-failure
collaborator calls. -/
structure MainEnv where
  itemEnvs : List ItemEnv
  mergeExamplesOk : Bool
  tempIntroOk : Bool
  introQuery : Option Int
  introOk : Bool
  mergeIntroOk : Bool
  addBookmarksOk : Bool
  renameOk : Bool
deriving DecidableEq

/-- What a successful run of `main` produces. -/
structure Output where
  pdfPaths : List String
  examplePageCounts : List Int
  introPageCount : Int
  finalPdf : Artifact
  logs : List LogEvent

/-- `main` (part_002 lines 137-302) after `GetGitHubFiles` succeeded:
run the per-example loop (failed items are skipped), merge the example
PDFs, render the placeholder intro, measure it (fallback `2` with a
warning when `api.PageCountFile` fails), render the real intro, merge
intro and examples, and apply bookmarks.  Every `log.Fatalf` becomes
`.error`; the pdfcpu index panic surfaces as `.error .indexOutOfRange`. -/
def mainRun (outputDir : String) (examples : List Example) (env : MainEnv) :
    Except RunErr Output :=
  let r := processExamples outputDir (examples.zip env.itemEnvs)
  if !env.mergeExamplesOk then .error .mergeExamplesFailed
  else if !env.tempIntroOk then .error .tempIntroFailed
  else
    let introPageCount := env.introQuery.getD 2
    let introLogs : List LogEvent :=
      if env.introQuery.isNone then [.introPageCountWarning] else []
    if !env.introOk then .error .introFailed
    else if !env.mergeIntroOk then .error .mergeIntroFailed
    else
      let tempMerged := Artifact.mergedOf
        [Artifact.raw (outputDir ++ "/intro.pdf"),
         Artifact.mergedOf (r.pdfPaths.map Artifact.raw)]
      match ApplyBookmarks examples introPageCount r.examplePageCounts
          env.addBookmarksOk env.renameOk tempMerged with
      | .error e => .error e
      | .ok final =>
        .ok { pdfPaths := r.pdfPaths, examplePageCounts := r.examplePageCounts,
              introPageCount := introPageCount, finalPdf := final,
              logs := r.logs ++ introLogs }

/-! ## Properties of the bookmark accumulation -/

lemma bookmarkLoop_spec (counts : List Int) :
    ∀ (examples : List Example) (i : Nat) (startPage : Int),
      i + examples.length ≤ counts.length →
      ∃ bks, bookmarkLoop counts i startPage examples = some bks ∧
        bks.length = examples.length ∧
        ∀ k, k < examples.length →
          ∃ bk, bks[k]? = some bk ∧
            bk.PageFrom = startPage + ((counts.drop i).take k).sum ∧
            ∀ p, counts[i + k]? = some p → bk.PageThru = bk.PageFrom + p - 1 := by
  intro examples
  induction examples with
  | nil =>
    intro i s _
    exact ⟨[], rfl, rfl, fun k hk => absurd hk (by simp)⟩
  | cons ex rest ih =>
    intro i s h
    have hi : i < counts.length := by
      simp only [List.length_cons] at h
      omega
    have hc : counts[i]? = some counts[i] := List.getElem?_eq_getElem hi
    obtain ⟨bks, hbks, hlen, hget⟩ :=
      ih (i + 1) (s + counts[i]) (by simp only [List.length_cons] at h; omega)
    have hdrop : counts.drop i = counts[i] :: counts.drop (i + 1) :=
      List.drop_eq_getElem_cons hi
    refine ⟨{ Title := toString (i + 1) ++ ". " ++ ex.Title,
              PageFrom := s, PageThru := s + counts[i] - 1 } :: bks, ?_, ?_, ?_⟩
    · simp only [bookmarkLoop, hc, hbks]
    · simp [hlen]
    · intro k hk
      cases k with
      | zero =>
        refine ⟨{ Title := toString (i + 1) ++ ". " ++ ex.Title,
                  PageFrom := s, PageThru := s + counts[i] - 1 },
                by simp, by simp, ?_⟩
        intro p hp
        rw [Nat.add_zero, hc] at hp
        rw [Option.some.inj hp]
      | succ k' =>
        have hk' : k' < rest.length := by
          simpa using hk
        obtain ⟨bk, hbk, hfrom, hthru⟩ := hget k' hk'
        refine ⟨bk, by simpa using hbk, ?_, ?_⟩
        · rw [hfrom, hdrop, List.take_succ_cons, List.sum_cons]
          ring
        · intro p hp
          refine hthru p ?_
          rw [show i + 1 + k' = i + (k' + 1) by omega]
          exact hp

lemma bookmarkLoop_none (counts : List Int) :
    ∀ (examples : List Example) (i : Nat) (startPage : Int),
      examples ≠ [] → counts.length < i + examples.length →
      bookmarkLoop counts i startPage examples = none := by
  intro examples
  induction examples with
  | nil => intro i s hne _; exact absurd rfl hne
  | cons ex rest ih =>
    intro i s _ h
    by_cases hi : i < counts.length
    · have hc : counts[i]? = some counts[i] := List.getElem?_eq_getElem hi
      have hrest : rest ≠ [] := by
        intro hr
        subst hr
        simp only [List.length_cons, List.length_nil] at h
        omega
      have := ih (i + 1) (s + counts[i]) hrest
        (by simp only [List.length_cons] at h; omega)
      simp only [bookmarkLoop, hc, this]
    · have hc : counts[i]? = none := by
        rw [List.getElem?_eq_none_iff]
        omega
      simp only [bookmarkLoop, hc]

lemma ApplyBookmarksBookmarks_isSome (Examples : List Example) (IntroPageCount : Int)
    (ExamplePageCounts : List Int) :
    (ApplyBookmarksBookmarks Examples IntroPageCount ExamplePageCounts).isSome ↔
      Examples.length ≤ ExamplePageCounts.length := by
  constructor
  · intro h
    by_contra hlt
    push_neg at hlt
    have hne : Examples ≠ [] := by
      intro he
      subst he
      simp at hlt
    unfold ApplyBookmarksBookmarks at h
    rw [bookmarkLoop_none ExamplePageCounts Examples 0 (IntroPageCount + 1) hne
      (by omega)] at h
    simp at h
  · intro h
    obtain ⟨bks, hbks, -, -⟩ :=
      bookmarkLoop_spec ExamplePageCounts Examples 0 (IntroPageCount + 1) (by omega)
    unfold ApplyBookmarksBookmarks
    rw [hbks]
    rfl

/-! ## Properties of the per-example loop and the pipeline -/

lemma processExamples_counts_le (outputDir : String) :
    ∀ l : List (Example × ItemEnv),
      (processExamples outputDir l).examplePageCounts.length ≤ l.length := by
  intro l
  induction l with
  | nil => simp [processExamples]
  | cons pr rest ih =>
    obtain ⟨ex, env⟩ := pr
    simp only [processExamples]
    cases hpe : (processExample outputDir ex env).1 with
    | none => simp only [List.length_cons]; omega
    | some pc => simp only [List.length_cons]; omega

lemma processExamples_counts_lt (outputDir : String) :
    ∀ l : List (Example × ItemEnv),
      (∃ pr ∈ l, (processExample outputDir pr.1 pr.2).1 = none) →
      (processExamples outputDir l).examplePageCounts.length < l.length := by
  intro l
  induction l with
  | nil => rintro ⟨pr, hpr, -⟩; simp at hpr
  | cons hd rest ih =>
    rintro ⟨pr, hpr, hnone⟩
    obtain ⟨ex, env⟩ := hd
    rcases List.mem_cons.mp hpr with heq | hmem
    · subst heq
      simp only [processExamples, hnone, List.length_cons]
      have := processExamples_counts_le outputDir rest
      omega
    · have hlt := ih ⟨pr, hmem, hnone⟩
      simp only [processExamples]
      cases hpe : (processExample outputDir ex env).1 with
      | none => simp only [List.length_cons]; omega
      | some pc => simp only [List.length_cons]; omega

lemma processExample_query_none_isSome (outputDir : String) (ex : Example)
    (env : ItemEnv) :
    ((processExample outputDir ex { env with PageCountQuery := none }).1).isSome =
      ((processExample outputDir ex env).1).isSome := by
  obtain ⟨he, pe, ce, hc, q⟩ := env
  cases he <;> cases pe <;> cases ce <;> cases hc <;> cases q <;>
    simp [processExample]

lemma mainRun_isOk_iff (outputDir : String) (examples : List Example)
    (env : MainEnv) :
    (∃ out, mainRun outputDir examples env = .ok out) ↔
      (env.mergeExamplesOk = true ∧ env.tempIntroOk = true ∧
       env.introOk = true ∧ env.mergeIntroOk = true ∧
       examples.length ≤
         (processExamples outputDir (examples.zip env.itemEnvs)).examplePageCounts.length ∧
       (env.addBookmarksOk = true ∨ env.renameOk = true)) := by
  simp only [mainRun]
  by_cases h1 : env.mergeExamplesOk
  case neg => simp [h1]
  by_cases h2 : env.tempIntroOk
  case neg => simp [h1, h2]
  by_cases h3 : env.introOk
  case neg => simp [h1, h2, h3]
  by_cases h4 : env.mergeIntroOk
  case neg => simp [h1, h2, h3, h4]
  simp only [h1, h2, h3, h4, Bool.not_true, Bool.false_eq_true, if_false, true_and]
  have hiff := ApplyBookmarksBookmarks_isSome examples (env.introQuery.getD 2)
    (processExamples outputDir (examples.zip env.itemEnvs)).examplePageCounts
  unfold ApplyBookmarks
  cases hb : ApplyBookmarksBookmarks examples (env.introQuery.getD 2)
      (processExamples outputDir (examples.zip env.itemEnvs)).examplePageCounts with
  | none =>
    rw [hb] at hiff
    simp only [Option.isSome_none, Bool.false_eq_true, false_iff] at hiff
    simp [hiff]
  | some bks =>
    rw [hb] at hiff
    have hle := hiff.mp (by simp)
    cases ha : env.addBookmarksOk with
    | true => simp [ha, hle]
    | false =>
      cases hr : env.renameOk with
      | true => simp [ha, hr, hle]
      | false => simp [ha, hr, hle]

/-! ## Claim C1: the page-range accumulation -/

/-- C1: for every non-empty sequence of items with page counts `p_1..p_n`
(each at least 1) and every front-matter page count `F`, the accumulation
loop of `ApplyBookmarks` started at page `F + 1` gives the `k`-th item a
range with `PageFrom = F + 1 + (p_1 + ... + p_k-1)` and
`PageThru = PageFrom + p_k - 1` (the cursor advances by `p_k` per item). -/
theorem c1_pagination_accumulation (F : Int) (examples : List Example)
    (counts : List Int) (hne : examples ≠ [])
    (hlen : examples.length = counts.length)
    (hpos : ∀ c ∈ counts, 1 ≤ c) (k : Nat) (hk : k < examples.length) :
    ∃ bks, bookmarkLoop counts 0 (F + 1) examples = some bks ∧
      ∃ bk, bks[k]? = some bk ∧
        bk.PageFrom = F + 1 + (counts.take k).sum ∧
        ∀ p, counts[k]? = some p → bk.PageThru = bk.PageFrom + p - 1 := by
  obtain ⟨bks, hbks, hlen', hget⟩ :=
    bookmarkLoop_spec counts examples 0 (F + 1) (by omega)
  obtain ⟨bk, hbk, hfrom, hthru⟩ := hget k hk
  refine ⟨bks, hbks, bk, hbk, ?_, ?_⟩
  · simpa using hfrom
  · intro p hp
    exact hthru p (by simpa using hp)

/-- Witness for C1 at `F = 2`, one item of page count 3. -/
theorem c1_pagination_accumulation_witness :
    ([⟨"Arrays", "", "arrays"⟩] : List Example) ≠ [] ∧
    ([⟨"Arrays", "", "arrays"⟩] : List Example).length = ([3] : List Int).length ∧
    (∀ c ∈ ([3] : List Int), 1 ≤ c) ∧
    0 < ([⟨"Arrays", "", "arrays"⟩] : List Example).length ∧
    (∃ bks, bookmarkLoop [3] 0 ((2 : Int) + 1) [⟨"Arrays", "", "arrays"⟩] = some bks ∧
      ∃ bk, bks[0]? = some bk ∧
        bk.PageFrom = (2 : Int) + 1 + (([3] : List Int).take 0).sum ∧
        ∀ p, ([3] : List Int)[0]? = some p → bk.PageThru = bk.PageFrom + p - 1) :=
  ⟨by decide, by decide, by decide, by decide,
    c1_pagination_accumulation 2 [⟨"Arrays", "", "arrays"⟩] [3]
      (by decide) (by decide) (by decide) 0 (by decide)⟩

/-! ## Claim C5: well-formedness of the produced ranges -/

/-- C5: with page counts all at least 1, the example ranges produced by
the `ApplyBookmarks` loop are contiguous (`PageFrom` of the next range is
`PageThru` of the previous plus one), each satisfies
`PageFrom ≤ PageThru`, and the first range starts at
`IntroPageCount + 1` (right after the front matter). -/
theorem c5_ranges_wellformed (IntroPageCount : Int) (examples : List Example)
    (counts : List Int) (hlen : examples.length ≤ counts.length)
    (hpos : ∀ c ∈ counts, 1 ≤ c) :
    ∃ bks, bookmarkLoop counts 0 (IntroPageCount + 1) examples = some bks ∧
      (∀ k bk bk', bks[k]? = some bk → bks[k + 1]? = some bk' →
        bk'.PageFrom = bk.PageThru + 1) ∧
      (∀ bk ∈ bks, bk.PageFrom ≤ bk.PageThru) ∧
      (∀ bk, bks[0]? = some bk → bk.PageFrom = IntroPageCount + 1) := by
  obtain ⟨bks, hbks, hlen', hget⟩ :=
    bookmarkLoop_spec counts examples 0 (IntroPageCount + 1) (by omega)
  have hsome : ∀ {k : Nat} {bk : Bookmark}, bks[k]? = some bk → k < examples.length := by
    intro k bk hk
    by_contra hge
    push_neg at hge
    rw [List.getElem?_eq_none_iff.mpr (by omega)] at hk
    exact Option.noConfusion hk
  have hval : ∀ {k : Nat} {bk : Bookmark}, bks[k]? = some bk →
      k < examples.length →
      ∃ c, counts[k]? = some c ∧
        bk.PageFrom = IntroPageCount + 1 + (counts.take k).sum ∧
        bk.PageThru = bk.PageFrom + c - 1 := by
    intro k bk hbkk hk
    obtain ⟨bkS, hbkS, hfrom, hthru⟩ := hget k hk
    have hbk : bk = bkS := Option.some.inj (hbkk.symm.trans hbkS)
    subst hbk
    have hkc : k < counts.length := by omega
    obtain ⟨c, hc⟩ : ∃ c, counts[k]? = some c :=
      ⟨_, List.getElem?_eq_getElem hkc⟩
    exact ⟨c, hc, by simpa using hfrom, hthru c (by simpa using hc)⟩
  refine ⟨bks, hbks, ?_, ?_, ?_⟩
  · intro k bk bk' hk hk1
    have hklt := hsome hk
    have hk1lt := hsome hk1
    obtain ⟨c, hck, hfrom, hthru⟩ := hval hk hklt
    obtain ⟨c', hck1, hfrom', -⟩ := hval hk1 hk1lt
    have hkc : k < counts.length := by omega
    have hcv : counts[k] = c :=
      Option.some.inj ((List.getElem?_eq_getElem hkc).symm.trans hck)
    rw [hfrom', hthru, hfrom, List.sum_take_succ counts k hkc, hcv]
    ring
  · intro bk hbk
    obtain ⟨k, hklt, hbkk⟩ := List.mem_iff_getElem.mp hbk
    have hk? : bks[k]? = some bk := by
      rw [List.getElem?_eq_getElem hklt, hbkk]
    have hkex : k < examples.length := hsome hk?
    obtain ⟨c, hck, hfrom, hthru⟩ := hval hk? hkex
    have hkc : k < counts.length := by omega
    have hcv : counts[k] = c :=
      Option.some.inj ((List.getElem?_eq_getElem hkc).symm.trans hck)
    have hmem : c ∈ counts := by
      rw [← hcv]
      exact List.getElem_mem hkc
    have := hpos c hmem
    omega
  · intro bk h0
    have h0lt := hsome h0
    obtain ⟨c, -, hfrom, -⟩ := hval h0 h0lt
    simpa using hfrom

/-- Witness for C5 with two items of page counts 1 and 2 after a 2-page
front matter. -/
theorem c5_ranges_wellformed_witness :
    ([⟨"A", "", "a"⟩, ⟨"B", "", "b"⟩] : List Example).length ≤
      ([1, 2] : List Int).length ∧
    (∀ c ∈ ([1, 2] : List Int), 1 ≤ c) ∧
    (∃ bks, bookmarkLoop [1, 2] 0 ((2 : Int) + 1)
        [⟨"A", "", "a"⟩, ⟨"B", "", "b"⟩] = some bks ∧
      (∀ k bk bk', bks[k]? = some bk → bks[k + 1]? = some bk' →
        bk'.PageFrom = bk.PageThru + 1) ∧
      (∀ bk ∈ bks, bk.PageFrom ≤ bk.PageThru) ∧
      (∀ bk, bks[0]? = some bk → bk.PageFrom = (2 : Int) + 1)) :=
  ⟨by decide, by decide,
    c5_ranges_wellformed 2 [⟨"A", "", "a"⟩, ⟨"B", "", "b"⟩] [1, 2]
      (by decide) (by decide)⟩

/-! ## Claim C9: the missing bounds check -/

/-- C9: the bookmark construction of `ApplyBookmarks` indexes
`ExamplePageCounts[i]` for every `i` below `Examples.length`, so it
succeeds exactly when `Examples.length ≤ ExamplePageCounts.length`; and
the per-example loop of `main` produces a strictly shorter page-count
slice than the item list whenever some item's HTML or PDF generation
fails (so the caller does not establish that precondition then). -/
theorem c9_bounds_precondition :
    (∀ (Examples : List Example) (IntroPageCount : Int)
        (ExamplePageCounts : List Int),
        (ApplyBookmarksBookmarks Examples IntroPageCount ExamplePageCounts).isSome ↔
          Examples.length ≤ ExamplePageCounts.length) ∧
    (∀ (outputDir : String) (l : List (Example × ItemEnv)),
        (∃ pr ∈ l, (processExample outputDir pr.1 pr.2).1 = none) →
        (processExamples outputDir l).examplePageCounts.length < l.length) :=
  ⟨fun E I C => ApplyBookmarksBookmarks_isSome E I C, processExamples_counts_lt⟩

/-- Witness for C9: one item whose PDF conversion fails. -/
theorem c9_bounds_precondition_witness :
    (∃ pr ∈ ([(⟨"A", "", "a"⟩, ⟨true, false, true, false, some 1⟩)] :
        List (Example × ItemEnv)),
      (processExample "files" pr.1 pr.2).1 = none) ∧
    (processExamples "files"
        [(⟨"A", "", "a"⟩, ⟨true, false, true, false, some 1⟩)]).examplePageCounts.length <
      ([(⟨"A", "", "a"⟩, ⟨true, false, true, false, some 1⟩)] :
        List (Example × ItemEnv)).length :=
  ⟨⟨(⟨"A", "", "a"⟩, ⟨true, false, true, false, some 1⟩), by decide, by decide⟩,
    c9_bounds_precondition.2 "files" _
      ⟨(⟨"A", "", "a"⟩, ⟨true, false, true, false, some 1⟩), by decide, by decide⟩⟩

/-! ## Claim C2: a single render failure aborts the run -/

/-- C2 (code bug): on a two-item run in which the second item's
`HTMLToPDF` conversion fails and every other collaborator succeeds, the
skipped item leaves `examplePageCounts` one short of `examples`, and the
unchecked `ExamplePageCounts[i]` access inside `ApplyBookmarks` panics:
the run aborts instead of producing the final combined artifact. -/
theorem c2_render_failure_aborts_run :
    mainRun "files"
      [⟨"arrays", "", "arrays"⟩, ⟨"channels", "", "channels"⟩]
      { itemEnvs := [⟨false, false, true, true, some 1⟩,
                     ⟨true, false, true, false, some 1⟩],
        mergeExamplesOk := true, tempIntroOk := true, introQuery := some 2,
        introOk := true, mergeIntroOk := true,
        addBookmarksOk := true, renameOk := true } =
      .error .indexOutOfRange := by
  rfl

/-! ## Claim C3: reflexivity of the matcher (corrected) -/

/-- C3 counterexample: `"go"` is a non-empty identifier string, yet
`matchNames "go" "go"` is not `1` — the stopword filter of
`ExtractWords` leaves no tokens at all, and `WordOverlap` returns `0`
on empty token lists. -/
theorem c3_counterexample : ("go" : String) ≠ "" ∧ matchNames "go" "go" ≠ 1 := by
  constructor
  · decide
  · have h : matchNames "go" "go" = 0 := rfl
    rw [h]
    norm_num

/-- C3 (amended): the matcher is reflexive on every identifier whose
extracted token list is non-empty — `matchNames a a = 1` whenever
`ExtractWords a ≠ []` — and `matchNames "" "" = 0`. -/
theorem c3_match_reflexive_amended :
    (∀ a : String, ExtractWords a ≠ [] → matchNames a a = 1) ∧
    matchNames "" "" = 0 :=
  ⟨fun _ h => WordOverlap_self_of_ne_nil h, rfl⟩

/-- Witness for C3 (amended) at `a = "hello"`. -/
theorem c3_match_reflexive_amended_witness :
    ExtractWords "hello" ≠ [] ∧ matchNames "hello" "hello" = 1 :=
  ⟨by decide, c3_match_reflexive_amended.1 "hello" (by decide)⟩

/-! ## Claim C6: symmetry of the matcher -/

/-- C6: the name matcher is symmetric:
`matchNames a b = matchNames b a` for all identifier strings. -/
theorem c6_match_symmetric (a b : String) : matchNames a b = matchNames b a :=
  WordOverlap_comm _ _

/-! ## Claim C10: WordOverlap depends only on the word sets -/

/-- C10: `WordOverlap` depends only on the sets of words in its
arguments: permuting either list, or duplicating an element already
present in a list, leaves the similarity unchanged. -/
theorem c10_set_semantics :
    (∀ (l1 l2 l1' l2' : List String), l1.Perm l1' → l2.Perm l2' →
        WordOverlap l1 l2 = WordOverlap l1' l2') ∧
    (∀ (l1 l2 : List String) (x : String), x ∈ l1 →
        WordOverlap (x :: l1) l2 = WordOverlap l1 l2) ∧
    (∀ (l1 l2 : List String) (x : String), x ∈ l2 →
        WordOverlap l1 (x :: l2) = WordOverlap l1 l2) := by
  refine ⟨?_, ?_, ?_⟩
  · intro l1 l2 l1' l2' h1 h2
    exact WordOverlap_congr_toFinset (List.toFinset_eq_of_perm _ _ h1)
      (List.toFinset_eq_of_perm _ _ h2)
  · intro l1 l2 x hx
    refine WordOverlap_congr_toFinset ?_ rfl
    rw [List.toFinset_cons, Finset.insert_eq_self.mpr (List.mem_toFinset.mpr hx)]
  · intro l1 l2 x hx
    refine WordOverlap_congr_toFinset rfl ?_
    rw [List.toFinset_cons, Finset.insert_eq_self.mpr (List.mem_toFinset.mpr hx)]

/-- Witness for C10: duplicating `"a"` in `["a"]` leaves the similarity
with `["b"]` unchanged. -/
theorem c10_set_semantics_witness :
    ("a" ∈ (["a"] : List String)) ∧
    WordOverlap ["a", "a"] ["b"] = WordOverlap ["a"] ["b"] :=
  ⟨by decide, c10_set_semantics.2.1 ["a"] ["b"] "a" (by decide)⟩

/-! ## Claim C4: cache reconciliation (corrected) -/

/-- C4 counterexample: scanning does not stop at the first candidate at
or above the `0.7` threshold.  With canonical id `hello_world_example`
and listing `[hello-world.html, world-hello.html]`, the first entry
reaches the threshold, but its read fails, so the scan continues and
adopts the second entry instead of the first. -/
theorem c4_counterexample :
    matchesExisting (ExtractWords "hello_world_example")
      ⟨"hello-world.html", false⟩ = true ∧
    processGitHubFile "hello_world_example"
      [⟨"hello-world.html", false⟩, ⟨"world-hello.html", false⟩]
      (fun n => if n = "world-hello.html" then some "cached2" else none)
      (fun _ => some "fetched") =
      some { Title := "world-hello", Content := "cached2",
             File := "world-hello" } := by
  have h1 : ExtractWords "hello_world_example" = ["hello", "world"] := by decide
  have hm1 : matchesExisting (ExtractWords "hello_world_example")
      (⟨"hello-world.html", false⟩ : DirEntry) = true := by
    have h2 : ExtractWords (TrimSuffix "hello-world.html" ".html") =
        ["hello", "world"] := by decide
    have hov : WordOverlap (ExtractWords "hello_world_example")
        (ExtractWords (TrimSuffix "hello-world.html" ".html")) ≥ 7 / 10 := by
      rw [h1, h2, WordOverlap_self_of_ne_nil (by decide)]
      norm_num
    unfold matchesExisting
    rw [decide_eq_true hov]
    decide
  have hm2 : matchesExisting (ExtractWords "hello_world_example")
      (⟨"world-hello.html", false⟩ : DirEntry) = true := by
    have h2 : ExtractWords (TrimSuffix "world-hello.html" ".html") =
        ["world", "hello"] := by decide
    have hov : WordOverlap (ExtractWords "hello_world_example")
        (ExtractWords (TrimSuffix "world-hello.html" ".html")) ≥ 7 / 10 := by
      rw [h1, h2,
        @WordOverlap_congr_toFinset ["hello", "world"] ["world", "hello"]
          ["world", "hello"] ["world", "hello"] (by decide) rfl,
        WordOverlap_self_of_ne_nil (by decide)]
      norm_num
    unfold matchesExisting
    rw [decide_eq_true hov]
    decide
  refine ⟨hm1, ?_⟩
  have hscan : scanExisting (ExtractWords "hello_world_example")
      (fun n => if n = "world-hello.html" then some "cached2" else none)
      [⟨"hello-world.html", false⟩, ⟨"world-hello.html", false⟩] =
      some (TrimSuffix "world-hello.html" ".html", "cached2") := by
    rw [scanExisting_cons_of_match_read_none hm1 (by decide)]
    exact scanExisting_cons_of_match hm2 (by decide)
  unfold processGitHubFile
  simp only [hscan]
  decide

/-- C4 (amended): reconciliation is first-readable-match-wins with
identity adoption: the first entry (in listing order) that is a
non-directory `.html` file at or above the `0.7` threshold and whose
content can be read is adopted — its trimmed name becomes the item's
title and filename, its read content is used instead of fetching, and
scanning stops there; matched entries whose read fails are skipped (with
a warning) and the scan continues.  When no entry is adopted, a download
is attempted: on success the item is named from the canonical filename,
on failure the item is dropped from the run. -/
theorem c4_cache_first_readable_match_wins (filename : String)
    (readFile download : String → Option String) :
    (∀ (pre post : List DirEntry) (entry : DirEntry) (content : String),
        (∀ e ∈ pre, adoptsExisting (ExtractWords filename) readFile e = false) →
        matchesExisting (ExtractWords filename) entry = true →
        readFile entry.Name = some content →
        processGitHubFile filename (pre ++ entry :: post) readFile download =
          some { Title := TrimSuffix entry.Name ".html",
                 Content := content,
                 File := TrimSuffix entry.Name ".html" }) ∧
    (∀ entries : List DirEntry,
        (∀ e ∈ entries, adoptsExisting (ExtractWords filename) readFile e = false) →
        processGitHubFile filename entries readFile download =
          (download filename).map
            (fun content =>
              { Title := filename, Content := content,
                File := sanitizeFilename filename })) := by
  constructor
  · intro pre post entry content hpre hmatch hread
    unfold processGitHubFile
    have hscan : scanExisting (ExtractWords filename) readFile
        (pre ++ entry :: post) =
        some (TrimSuffix entry.Name ".html", content) := by
      induction pre with
      | nil => exact scanExisting_cons_of_match hmatch hread
      | cons e pre' ih =>
        have he := hpre e (by simp)
        unfold adoptsExisting at he
        rw [List.cons_append]
        by_cases hm : matchesExisting (ExtractWords filename) e = true
        · have hr : readFile e.Name = none := by
            cases hrf : readFile e.Name with
            | none => rfl
            | some v =>
              rw [hm, hrf] at he
              simp at he
          rw [scanExisting_cons_of_match_read_none hm hr]
          exact ih fun e' he' => hpre e' (by simp [he'])
        · rw [scanExisting_cons_of_not_match (by simpa using hm)]
          exact ih fun e' he' => hpre e' (by simp [he'])
    simp only [hscan]
  · intro entries hnone
    unfold processGitHubFile
    simp only [scanExisting_eq_none hnone]
    cases hd : download filename <;> simp [hd]

/-- Witness for C4 (amended): the spec scenario — cache holds a readable
`hello-world.html`, the canonical id is `hello_world_example`, both
tokenize to `{hello, world}`, so the cached file is adopted without a
download. -/
theorem c4_cache_first_readable_match_wins_witness :
    (∀ e ∈ ([] : List DirEntry),
        adoptsExisting (ExtractWords "hello_world_example")
          (fun _ => some "cached") e = false) ∧
    matchesExisting (ExtractWords "hello_world_example")
      ⟨"hello-world.html", false⟩ = true ∧
    (fun _ : String => (some "cached" : Option String))
      (DirEntry.Name ⟨"hello-world.html", false⟩) = some "cached" ∧
    processGitHubFile "hello_world_example"
        ([] ++ (⟨"hello-world.html", false⟩ : DirEntry) :: [])
        (fun _ => some "cached") (fun _ => some "fetched") =
      some
        { Title := TrimSuffix (DirEntry.Name ⟨"hello-world.html", false⟩) ".html",
          Content := "cached",
          File := TrimSuffix (DirEntry.Name ⟨"hello-world.html", false⟩) ".html" } := by
  have h1 : ExtractWords "hello_world_example" = ["hello", "world"] := by decide
  have h2 : ExtractWords (TrimSuffix "hello-world.html" ".html") =
      ["hello", "world"] := by decide
  have hov : WordOverlap (ExtractWords "hello_world_example")
      (ExtractWords (TrimSuffix "hello-world.html" ".html")) ≥ 7 / 10 := by
    rw [h1, h2, WordOverlap_self_of_ne_nil (by decide)]
    norm_num
  have hmatch : matchesExisting (ExtractWords "hello_world_example")
      (⟨"hello-world.html", false⟩ : DirEntry) = true := by
    unfold matchesExisting
    rw [decide_eq_true hov]
    decide
  exact ⟨by simp, hmatch, rfl,
    (c4_cache_first_readable_match_wins "hello_world_example"
        (fun _ => some "cached") (fun _ => some "fetched")).1
      [] [] ⟨"hello-world.html", false⟩ "cached" (by simp) hmatch rfl⟩

/-! ## Claim C7: fallback on outline failure (corrected) -/

/-- C7 counterexample: when outline writing fails and the fallback rename
also fails, `ApplyBookmarks` returns an error rather than returning
without error as the claim states. -/
theorem c7_counterexample :
    ApplyBookmarks [] 1 [] false false (Artifact.raw "temp_with_intro.pdf") =
      .error .renameFailed := rfl

/-- C7 (amended): when outline writing fails and the page counts cover
all examples, `ApplyBookmarks` falls back to renaming: if the rename
succeeds, the merged-but-unlabeled artifact becomes the final output and
no error is returned; if the rename also fails, the error is returned
(and `main` aborts on it). -/
theorem c7_outline_failure_fallback (Examples : List Example)
    (IntroPageCount : Int) (ExamplePageCounts : List Int) (renameOk : Bool)
    (tempMergedPDF : Artifact)
    (hlen : Examples.length ≤ ExamplePageCounts.length) :
    (renameOk = true →
      ApplyBookmarks Examples IntroPageCount ExamplePageCounts false renameOk
        tempMergedPDF = .ok tempMergedPDF) ∧
    (renameOk = false →
      ApplyBookmarks Examples IntroPageCount ExamplePageCounts false renameOk
        tempMergedPDF = .error .renameFailed) := by
  have hs := (ApplyBookmarksBookmarks_isSome Examples IntroPageCount
    ExamplePageCounts).mpr hlen
  obtain ⟨bks, hbks⟩ := Option.isSome_iff_exists.mp hs
  unfold ApplyBookmarks
  rw [hbks]
  constructor
  · intro hr
    subst hr
    simp
  · intro hr
    subst hr
    simp

/-- Witness for C7 (amended) on an empty example list with a successful
rename. -/
theorem c7_outline_failure_fallback_witness :
    ([] : List Example).length ≤ ([] : List Int).length ∧
    ((true = true →
      ApplyBookmarks [] 3 [] false true (Artifact.raw "t.pdf") =
        .ok (Artifact.raw "t.pdf")) ∧
     (true = false →
      ApplyBookmarks [] 3 [] false true (Artifact.raw "t.pdf") =
        .error .renameFailed)) :=
  ⟨by decide, c7_outline_failure_fallback [] 3 [] true (Artifact.raw "t.pdf")
    (by decide)⟩

/-! ## Claim C8: page-count fallbacks -/

/-- C8: a failing per-example page-count query is replaced by `1` with a
logged warning and never changes whether the example is kept; a failing
intro page-count query is replaced by `2` with a logged warning; and
clearing the intro query never changes whether the run succeeds. -/
theorem c8_pagecount_fallbacks :
    (∀ (outputDir : String) (ex : Example) (env : ItemEnv) (p : String)
        (c : Int) (logs : List LogEvent),
        env.PageCountQuery = none →
        processExample outputDir ex env = (some (p, c), logs) →
        c = 1 ∧ LogEvent.pageCountWarning ex.Title ∈ logs) ∧
    (∀ (outputDir : String) (examples : List Example) (env : MainEnv)
        (out : Output),
        env.introQuery = none → mainRun outputDir examples env = .ok out →
        out.introPageCount = 2 ∧ LogEvent.introPageCountWarning ∈ out.logs) ∧
    (∀ (outputDir : String) (ex : Example) (env : ItemEnv),
        ((processExample outputDir ex { env with PageCountQuery := none }).1).isSome =
          ((processExample outputDir ex env).1).isSome) ∧
    (∀ (outputDir : String) (examples : List Example) (env : MainEnv),
        (∃ out, mainRun outputDir examples { env with introQuery := none } = .ok out) ↔
          (∃ out, mainRun outputDir examples env = .ok out)) := by
  refine ⟨?_, ?_, ?_, ?_⟩
  · intro outputDir ex env p c logs hq hpe
    obtain ⟨he, pe, ce, hc, q⟩ := env
    cases hq
    cases he <;> cases pe <;> cases ce <;> cases hc <;>
      simp_all [processExample]
    all_goals rw [← hpe.2]
    all_goals simp
  · intro outputDir examples env out hq hok
    simp only [mainRun, hq] at hok
    by_cases h1 : env.mergeExamplesOk
    case neg => simp [h1] at hok
    by_cases h2 : env.tempIntroOk
    case neg => simp [h1, h2] at hok
    by_cases h3 : env.introOk
    case neg => simp [h1, h2, h3] at hok
    by_cases h4 : env.mergeIntroOk
    case neg => simp [h1, h2, h3, h4] at hok
    simp only [h1, h2, h3, h4, Bool.not_true, Bool.false_eq_true, if_false,
      Option.getD_none, Option.isNone_none, if_true] at hok
    cases hb : ApplyBookmarks examples 2
        (processExamples outputDir (examples.zip env.itemEnvs)).examplePageCounts
        env.addBookmarksOk env.renameOk
        (Artifact.mergedOf
          [Artifact.raw (outputDir ++ "/intro.pdf"),
           Artifact.mergedOf
             ((processExamples outputDir
                (examples.zip env.itemEnvs)).pdfPaths.map Artifact.raw)]) with
    | error e => rw [hb] at hok; exact absurd hok (by simp)
    | ok final =>
      rw [hb] at hok
      simp only [Except.ok.injEq] at hok
      subst hok
      refine ⟨rfl, ?_⟩
      simp
  · exact processExample_query_none_isSome
  · intro outputDir examples env
    rw [mainRun_isOk_iff, mainRun_isOk_iff]

/-- Witness for C8: a kept example whose page-count query fails gets the
fallback count `1` and a warning. -/
theorem c8_pagecount_fallbacks_witness :
    (⟨true, true, true, true, none⟩ : ItemEnv).PageCountQuery = none ∧
    processExample "files" ⟨"A", "", "a"⟩ ⟨true, true, true, true, none⟩ =
      (some ("files/a.pdf", 1), [LogEvent.pageCountWarning "A"]) ∧
    ((1 : Int) = 1 ∧
      LogEvent.pageCountWarning "A" ∈ [LogEvent.pageCountWarning "A"]) :=
  ⟨rfl, by decide,
    c8_pagecount_fallbacks.1 "files" ⟨"A", "", "a"⟩ ⟨true, true, true, true, none⟩
      "files/a.pdf" 1 [LogEvent.pageCountWarning "A"] rfl (by decide)⟩

end GoByExample
